import Mathlib

/-!
Shallow embedding of the pwordGen password generator (src/crypto.ts,
src/generator.ts, src/entropy.ts, src/types.ts) and proofs about it.

Modelling conventions:
* JS strings become `List Char`; a `Uint8Array` byte source becomes a
  function `Nat → Nat` (each value reduced mod 256 at the read site) together
  with a cursor, threaded explicitly through every random draw.
* JS numbers holding integer values become `Int` (configuration lengths) or
  `Nat` (byte values, sizes).  The 32-bit signed wrap-around of the JS
  bitwise operators `<<` and `|` is modelled exactly (`assembleStep`,
  `int32OfPattern`), since the source assembles random bytes with them.
* `Math.ceil(Math.log2 max)` is modelled by the exact ceiling logarithm
  `Nat.clog 2 max`; the two agree on every `max` for which an IEEE double
  log2 is exact enough (in particular on the whole range exercised here).
* Thrown errors become `Except GenError`; `Math.log2`-based entropy
  arithmetic is modelled over `ℝ`.
* Reading a JS array out of range yields `undefined`; this is modelled by
  `Option Char` entries in the working password buffer (`none` =
  `undefined`), and `Array.prototype.join('')` renders `undefined` as the
  empty string, modelled by `joinBuf` discarding `none` entries.
-/

namespace PwordGen

/-- `CHARACTER_CLASSES.lowercase` from src/types.ts. -/
def lowercaseClass : List Char := "abcdefghijklmnopqrstuvwxyz".data

/-- `CHARACTER_CLASSES.uppercase` from src/types.ts. -/
def uppercaseClass : List Char := "ABCDEFGHIJKLMNOPQRSTUVWXYZ".data

/-- `CHARACTER_CLASSES.digits` from src/types.ts. -/
def digitsClass : List Char := "0123456789".data

/-- `CHARACTER_CLASSES.symbols` from src/types.ts (26 punctuation characters). -/
def symbolsClass : List Char := "!@#$%^&*()_+-=[]\x7b\x7d|;:,.<>?".data

/-- `SIMILAR_CHARACTERS` from src/types.ts. -/
def SIMILAR_CHARACTERS : List Char := "il1Lo0O".data

/-- `PasswordOptions` from src/types.ts: every field optional. -/
structure PasswordOptions where
  length : Option Int := none
  lowercase : Option Bool := none
  uppercase : Option Bool := none
  digits : Option Bool := none
  symbols : Option Bool := none
  custom : Option (List Char) := none
  excludeSimilar : Option Bool := none
  exclude : Option (List Char) := none
  requireEachSelectedClass : Option Bool := none

/-- `NormalizedPasswordOptions` from src/types.ts. -/
structure NormalizedPasswordOptions where
  length : Int
  lowercase : Bool
  uppercase : Bool
  digits : Bool
  symbols : Bool
  custom : List Char
  excludeSimilar : Bool
  exclude : List Char
  requireEachSelectedClass : Bool

/-- `normalizeOptions` from src/generator.ts: apply the documented defaults. -/
def normalizeOptions (o : PasswordOptions) : NormalizedPasswordOptions :=
  { length := o.length.getD 16
    lowercase := o.lowercase.getD true
    uppercase := o.uppercase.getD true
    digits := o.digits.getD true
    symbols := o.symbols.getD true
    custom := o.custom.getD []
    excludeSimilar := o.excludeSimilar.getD false
    exclude := o.exclude.getD []
    requireEachSelectedClass := o.requireEachSelectedClass.getD false }

/-- Insertion-order deduplication with a membership-tracking `seen` list:
the semantics of `[...new Set(pool.split(''))]` in src/generator.ts. -/
def dedupAux : List Char → List Char → List Char
  | _, [] => []
  | seen, c :: cs =>
      if seen.contains c then dedupAux seen cs else c :: dedupAux (c :: seen) cs

/-- `[...new Set(l)].join('')`: first-occurrence-order deduplication. -/
def dedup (l : List Char) : List Char := dedupAux [] l

/-- The value of the `pool` variable of `buildCharacterPool`
(src/generator.ts) after the five guarded `pool += ...` statements and
before the two filters (JS truthiness: the empty `custom` string is falsy). -/
def basePool (o : NormalizedPasswordOptions) : List Char :=
  (if o.lowercase then lowercaseClass else []) ++
  (if o.uppercase then uppercaseClass else []) ++
  (if o.digits then digitsClass else []) ++
  (if o.symbols then symbolsClass else []) ++
  (if !o.custom.isEmpty then o.custom else [])

/-- `buildCharacterPool` from src/generator.ts: concatenate the selected
classes and `custom`, filter the similar set when `excludeSimilar`, filter
`exclude` when non-empty, then deduplicate preserving order. -/
def buildCharacterPool (o : NormalizedPasswordOptions) : List Char :=
  let pool := basePool o
  let pool :=
    if o.excludeSimilar then pool.filter (fun c => !(SIMILAR_CHARACTERS.contains c)) else pool
  let pool :=
    if !o.exclude.isEmpty then pool.filter (fun c => !(o.exclude.contains c)) else pool
  dedup pool

/-- The per-class filtering repeated verbatim for each class inside
`getSelectedClasses` in src/generator.ts: drop similar characters when
`excludeSimilar`, then drop `exclude` characters when `exclude` is truthy. -/
def filterClassChars (o : NormalizedPasswordOptions) (chars : List Char) : List Char :=
  let chars :=
    if o.excludeSimilar then chars.filter (fun c => !(SIMILAR_CHARACTERS.contains c)) else chars
  if !o.exclude.isEmpty then chars.filter (fun c => !(o.exclude.contains c)) else chars

/-- `if (chars.length > 0) classes.push(chars)` from src/generator.ts. -/
def keepIfNonempty (l : List Char) : List (List Char) :=
  if l.isEmpty then [] else [l]

/-- `getSelectedClasses` from src/generator.ts: for each selected source
(lowercase, uppercase, digits, symbols, custom — custom gated by JS
truthiness) push its filtered character list when it is non-empty. -/
def getSelectedClasses (o : NormalizedPasswordOptions) : List (List Char) :=
  (if o.lowercase then keepIfNonempty (filterClassChars o lowercaseClass) else []) ++
  (if o.uppercase then keepIfNonempty (filterClassChars o uppercaseClass) else []) ++
  (if o.digits then keepIfNonempty (filterClassChars o digitsClass) else []) ++
  (if o.symbols then keepIfNonempty (filterClassChars o symbolsClass) else []) ++
  (if !o.custom.isEmpty then keepIfNonempty (filterClassChars o o.custom) else [])

/-- The errors thrown by src/crypto.ts and src/generator.ts.  The
`Number.isInteger(options.length)` branch of `validateOptions` cannot fire in
this integer-valued embedding and is subsumed by `invalidLength`. -/
inductive GenError where
  /-- "max must be a positive integer" (src/crypto.ts). -/
  | invalidArgument
  /-- "Failed to generate unbiased random number after maximum attempts". -/
  | randomnessExhausted
  /-- "Password length must be at least 1" / "must be an integer". -/
  | invalidLength
  /-- "Character pool is empty - no characters available ...". -/
  | emptyPool
  /-- "Cannot require each selected class: ...". -/
  | insufficientLengthForClasses
  deriving DecidableEq, Repr

/-- `validateOptions` from src/generator.ts, in the source's check order. -/
def validateOptions (o : NormalizedPasswordOptions) : Except GenError Unit :=
  if o.length < 1 then .error .invalidLength
  else if (buildCharacterPool o).isEmpty then .error .emptyPool
  else if o.requireEachSelectedClass then
    (if ((getSelectedClasses o).length : Int) > o.length then
      .error .insufficientLengthForClasses
    else .ok ())
  else .ok ()

/-- `getRandomBytes` (src/crypto.ts) against a stubbed byte source: read `n`
bytes starting at cursor `pos`; a `Uint8Array` entry is always in `[0, 256)`,
hence the reduction mod 256 at the read site. -/
def getRandomBytes (stream : Nat → Nat) (pos n : Nat) : List Nat :=
  (List.range n).map (fun i => stream (pos + i) % 256)

/-- One step of the assembly loop `randomValue = (randomValue << 8) |
randomBytes[i]` in src/crypto.ts.  JS `<<` and `|` operate on 32-bit signed
integers; tracking the unsigned 32-bit pattern, shifting left by 8 then
or-ing a byte (the low 8 bits being zero after the shift) is exactly
multiply-by-256-and-add modulo 2^32. -/
def assembleStep (v b : Nat) : Nat := (v * 256 + b) % 4294967296

/-- The full byte-assembly loop of src/crypto.ts, as a 32-bit pattern. -/
def assembleBytes (bytes : List Nat) : Nat := bytes.foldl assembleStep 0

/-- Reinterpret a 32-bit pattern as the signed value JS sees. -/
def int32OfPattern (v : Nat) : Int :=
  if v % 4294967296 < 2147483648 then ((v % 4294967296 : Nat) : Int)
  else ((v % 4294967296 : Nat) : Int) - 4294967296

/-- The JS remainder operator `%`: truncated division, sign of the dividend. -/
def jsRem (a : Int) (m : Nat) : Int :=
  if 0 ≤ a then a % (m : Int) else -((-a) % (m : Int))

/-- Ceiling base-2 logarithm by repeated halving (`⌈log2 m⌉ = ⌈log2 ⌈m/2⌉⌉ + 1`
for `m ≥ 2`), with a structural fuel argument so that the kernel can
evaluate it; `fuel ≥ log2 m` suffices. -/
def clog2Aux : Nat → Nat → Nat
  | _, 0 => 0
  | m, fuel + 1 => if m ≤ 1 then 0 else clog2Aux ((m + 1) / 2) fuel + 1

/-- `bitsNeeded = Math.ceil(Math.log2(max))` (src/crypto.ts), as the exact
ceiling base-2 logarithm (`bitsNeeded_eq_clog` below identifies it with
`Nat.clog 2` on every value a JS number can hold as an integer; 64 halvings
cover the whole of that range). -/
def bitsNeeded (max : Nat) : Nat := clog2Aux max 64

/-- `bytesNeeded = Math.ceil(bitsNeeded / 8)` (src/crypto.ts). -/
def bytesNeeded (max : Nat) : Nat := (bitsNeeded max + 7) / 8

/-- `maxValidValue = Math.floor(256 ** bytesNeeded / max) * max - 1`
(src/crypto.ts); `Nat` division is the floor. -/
def maxValidValue (max : Nat) : Nat := 256 ^ bytesNeeded max / max * max - 1

/-- The `while (attempts < maxAttempts)` rejection loop of src/crypto.ts:
draw `bytesN` bytes, assemble them (with the JS 32-bit semantics), accept
when the signed value is at most `mvv`, otherwise retry on fresh bytes. -/
def sampleLoop (max bytesN : Nat) (mvv : Int) (stream : Nat → Nat) :
    Nat → Nat → Except GenError (Int × Nat)
  | 0, _ => .error .randomnessExhausted
  | fuel + 1, pos =>
      let v := int32OfPattern (assembleBytes (getRandomBytes stream pos bytesN))
      if v ≤ mvv then .ok (jsRem v max, pos + bytesN)
      else sampleLoop max bytesN mvv stream fuel (pos + bytesN)

/-- `getSecureRandomInt` from src/crypto.ts.  Returns the sampled value and
the new cursor into the byte source.  `maxAttempts = 1000`. -/
def getSecureRandomInt (max : Nat) (stream : Nat → Nat) (pos : Nat) :
    Except GenError (Int × Nat) :=
  if max = 0 then .error .invalidArgument
  else if max = 1 then .ok (0, pos)
  else sampleLoop max (bytesNeeded max) ((maxValidValue max : Nat) : Int) stream 1000 pos

/-- JS `list[j]` for a possibly out-of-range (even negative) index:
`undefined` is `none`. -/
def jsCharAt (l : List Char) (j : Int) : Option Char :=
  if 0 ≤ j then l[j.toNat]? else none

/-- JS read of the working buffer (whose entries may themselves be
`undefined`): out of range gives `undefined`. -/
def jsRead (l : List (Option Char)) (j : Int) : Option Char :=
  if 0 ≤ j then (l[j.toNat]?).getD none else none

/-- The destructuring swap `[password[i], password[j]] = [password[j],
password[i]]` of the Fisher-Yates loop in src/generator.ts.  For a negative
`j` the write `password[j] = vi` lands on a negative array key, which
`join('')` never reads, so only the write to `i` remains. -/
def jsSwap (l : List (Option Char)) (i : Nat) (j : Int) : List (Option Char) :=
  let vi := jsRead l (i : Int)
  let vj := jsRead l j
  if 0 ≤ j then (l.set i vj).set j.toNat vi else l.set i vj

/-- `password.join('')`: JS renders `undefined` entries as the empty string. -/
def joinBuf (l : List (Option Char)) : List Char := l.filterMap id

/-- The first loop of `generateWithRequiredClasses` (src/generator.ts): one
pick from each selected class, appended to the working buffer. -/
def pickFromClasses (stream : Nat → Nat) :
    List (List Char) → List (Option Char) → Nat → Except GenError (List (Option Char) × Nat)
  | [], acc, pos => .ok (acc, pos)
  | cls :: rest, acc, pos =>
      match getSecureRandomInt cls.length stream pos with
      | .error e => .error e
      | .ok (j, pos1) => pickFromClasses stream rest (acc ++ [jsCharAt cls j]) pos1

/-- `n` independent picks from the full pool, appended to the buffer: the
fill loop of `generateWithRequiredClasses` and the whole of `generateBasic`. -/
def fillFromPool (stream : Nat → Nat) (pool : List Char) :
    Nat → List (Option Char) → Nat → Except GenError (List (Option Char) × Nat)
  | 0, acc, pos => .ok (acc, pos)
  | n + 1, acc, pos =>
      match getSecureRandomInt pool.length stream pos with
      | .error e => .error e
      | .ok (j, pos1) => fillFromPool stream pool n (acc ++ [jsCharAt pool j]) pos1

/-- The Fisher-Yates loop `for (let i = password.length - 1; i > 0; i--)` of
src/generator.ts; the argument is the current index `i`, the bound passed to
the sampler is `i + 1`. -/
def fisherYates (stream : Nat → Nat) :
    Nat → List (Option Char) → Nat → Except GenError (List (Option Char) × Nat)
  | 0, l, pos => .ok (l, pos)
  | i + 1, l, pos =>
      match getSecureRandomInt (i + 2) stream pos with
      | .error e => .error e
      | .ok (j, pos1) => fisherYates stream i (jsSwap l (i + 1) j) pos1

/-- `generateWithRequiredClasses` from src/generator.ts. -/
def generateWithRequiredClasses (pool : List Char) (selectedClasses : List (List Char))
    (o : NormalizedPasswordOptions) (stream : Nat → Nat) (pos : Nat) :
    Except GenError (List Char × Nat) :=
  match pickFromClasses stream selectedClasses [] pos with
  | .error e => .error e
  | .ok (buf1, pos1) =>
      match fillFromPool stream pool (o.length - (selectedClasses.length : Int)).toNat buf1 pos1 with
      | .error e => .error e
      | .ok (buf2, pos2) =>
          match fisherYates stream (buf2.length - 1) buf2 pos2 with
          | .error e => .error e
          | .ok (buf3, pos3) => .ok (joinBuf buf3, pos3)

/-- `generateBasic` from src/generator.ts. -/
def generateBasic (pool : List Char) (len : Nat) (stream : Nat → Nat) (pos : Nat) :
    Except GenError (List Char × Nat) :=
  match fillFromPool stream pool len [] pos with
  | .error e => .error e
  | .ok (buf, pos1) => .ok (joinBuf buf, pos1)

/-- `generatePassword` from src/generator.ts: normalize, validate eagerly,
then assemble.  Returns the password together with the number of source
bytes consumed. -/
def generatePassword (opts : PasswordOptions) (stream : Nat → Nat) :
    Except GenError (List Char × Nat) :=
  let o := normalizeOptions opts
  match validateOptions o with
  | .error e => .error e
  | .ok _ =>
      let pool := buildCharacterPool o
      if o.requireEachSelectedClass then
        generateWithRequiredClasses pool (getSelectedClasses o) o stream 0
      else
        generateBasic pool o.length.toNat stream 0

/-- `estimateEntropyBits` from src/entropy.ts: `0` for a degenerate length or
an empty pool, otherwise `length * log2(poolSize)` (the double arithmetic is
modelled over `ℝ`). -/
noncomputable def estimateEntropyBits (opts : PasswordOptions) : ℝ :=
  let o := normalizeOptions opts
  if o.length < 1 then 0
  else
    let pool := buildCharacterPool o
    if pool.isEmpty then 0
    else (o.length : ℝ) * Real.logb 2 (pool.length : ℝ)

/-! ## Generic helper lemmas -/

theorem contains_iff_mem {l : List Char} {c : Char} : l.contains c = true ↔ c ∈ l :=
  List.elem_iff

theorem mem_dedupAux {l seen : List Char} {c : Char} :
    c ∈ dedupAux seen l ↔ c ∈ l ∧ c ∉ seen := by
  induction l generalizing seen with
  | nil => simp [dedupAux]
  | cons d ds ih =>
      by_cases hd : seen.contains d
      · rw [dedupAux, if_pos hd, ih]
        have hmem : d ∈ seen := contains_iff_mem.mp hd
        constructor
        · rintro ⟨h1, h2⟩; exact ⟨.tail _ h1, h2⟩
        · rintro ⟨h1, h2⟩
          rcases List.mem_cons.mp h1 with rfl | h1
          · exact absurd hmem h2
          · exact ⟨h1, h2⟩
      · rw [dedupAux, if_neg hd]
        have hmem : d ∉ seen := fun h => hd (contains_iff_mem.mpr h)
        constructor
        · intro h
          rcases List.mem_cons.mp h with rfl | h
          · exact ⟨List.mem_cons_self _ _, hmem⟩
          · have := ih.mp h
            exact ⟨.tail _ this.1, fun hc => this.2 (.tail _ hc)⟩
        · rintro ⟨h1, h2⟩
          rcases List.mem_cons.mp h1 with rfl | h1
          · exact List.mem_cons_self _ _
          · by_cases hcd : c = d
            · subst hcd; exact List.mem_cons_self _ _
            · exact List.mem_cons.mpr (.inr (ih.mpr ⟨h1, by
                intro hc
                rcases List.mem_cons.mp hc with h | h
                · exact hcd h
                · exact h2 h⟩))

theorem mem_dedup {l : List Char} {c : Char} : c ∈ dedup l ↔ c ∈ l := by
  simp [dedup, mem_dedupAux]

theorem nodup_dedupAux (l : List Char) : ∀ seen : List Char, (dedupAux seen l).Nodup := by
  induction l with
  | nil => intro seen; simp [dedupAux]
  | cons d ds ih =>
      intro seen
      by_cases hd : seen.contains d
      · rw [dedupAux, if_pos hd]; exact ih seen
      · rw [dedupAux, if_neg hd]
        refine List.nodup_cons.mpr ⟨?_, ih (d :: seen)⟩
        intro hmem
        exact (mem_dedupAux.mp hmem).2 (List.mem_cons_self _ _)

theorem nodup_dedup (l : List Char) : (dedup l).Nodup := nodup_dedupAux l []

/-! ## Pool membership -/

theorem contains_eq_false_iff {l : List Char} {c : Char} : l.contains c = false ↔ c ∉ l := by
  rw [← Bool.not_eq_true, contains_iff_mem]

theorem mem_filter_not_contains {l ex : List Char} {c : Char} :
    c ∈ l.filter (fun d => !(ex.contains d)) ↔ c ∈ l ∧ c ∉ ex := by
  simp only [List.mem_filter, Bool.not_eq_true', contains_eq_false_iff]

theorem mem_buildCharacterPool {o : NormalizedPasswordOptions} {c : Char} :
    c ∈ buildCharacterPool o ↔
      c ∈ basePool o ∧ (o.excludeSimilar = true → c ∉ SIMILAR_CHARACTERS) ∧ c ∉ o.exclude := by
  unfold buildCharacterPool
  rw [mem_dedup]
  by_cases hs : o.excludeSimilar
  · by_cases he : o.exclude.isEmpty
    · simp [hs, he, mem_filter_not_contains, List.isEmpty_iff.mp he]
    · simp [hs, he, mem_filter_not_contains]
      tauto
  · by_cases he : o.exclude.isEmpty
    · simp [hs, he, List.isEmpty_iff.mp he]
    · simp [hs, he, mem_filter_not_contains]

theorem mem_filterClassChars {o : NormalizedPasswordOptions} {src : List Char} {c : Char} :
    c ∈ filterClassChars o src ↔
      c ∈ src ∧ (o.excludeSimilar = true → c ∉ SIMILAR_CHARACTERS) ∧ c ∉ o.exclude := by
  unfold filterClassChars
  by_cases hs : o.excludeSimilar
  · by_cases he : o.exclude.isEmpty
    · simp [hs, he, mem_filter_not_contains, List.isEmpty_iff.mp he]
    · simp [hs, he, mem_filter_not_contains]
      tauto
  · by_cases he : o.exclude.isEmpty
    · simp [hs, he, List.isEmpty_iff.mp he]
    · simp [hs, he, mem_filter_not_contains]

theorem mem_guarded {b : Bool} {ls : List (List Char)} {cls : List Char}
    (h : cls ∈ (if b then ls else [])) : b = true ∧ cls ∈ ls := by
  cases b <;> simp_all

theorem mem_keepIfNonempty {l cls : List Char} (h : cls ∈ keepIfNonempty l) :
    cls = l ∧ cls ≠ [] := by
  unfold keepIfNonempty at h
  by_cases he : l.isEmpty
  · simp [he] at h
  · simp [he] at h
    subst h
    exact ⟨rfl, by simpa using he⟩

/-- Each entry of `getSelectedClasses` is the filtered form of one selected
source, and every one of its characters lands in the full pool. -/
theorem class_mem_pool {o : NormalizedPasswordOptions} {cls : List Char} {c : Char}
    (h : cls ∈ getSelectedClasses o) (hc : c ∈ cls) : c ∈ buildCharacterPool o := by
  unfold getSelectedClasses at h
  have finish : ∀ src : List Char, cls = filterClassChars o src →
      (∀ d, d ∈ src → d ∈ basePool o) → c ∈ buildCharacterPool o := by
    intro src hsrc hsub
    subst hsrc
    rcases mem_filterClassChars.mp hc with ⟨h1, h2, h3⟩
    exact mem_buildCharacterPool.mpr ⟨hsub c h1, h2, h3⟩
  rcases List.mem_append.mp h with h4 | h5
  · rcases List.mem_append.mp h4 with h3 | h5
    · rcases List.mem_append.mp h3 with h2 | h5
      · rcases List.mem_append.mp h2 with h1 | h5
        · rcases mem_guarded h1 with ⟨hb, hk⟩
          refine finish _ (mem_keepIfNonempty hk).1 ?_
          intro d hd; unfold basePool; simp [hb, hd]
        · rcases mem_guarded h5 with ⟨hb, hk⟩
          refine finish _ (mem_keepIfNonempty hk).1 ?_
          intro d hd; unfold basePool; simp [hb, hd]
      · rcases mem_guarded h5 with ⟨hb, hk⟩
        refine finish _ (mem_keepIfNonempty hk).1 ?_
        intro d hd; unfold basePool; simp [hb, hd]
    · rcases mem_guarded h5 with ⟨hb, hk⟩
      refine finish _ (mem_keepIfNonempty hk).1 ?_
      intro d hd; unfold basePool; simp [hb, hd]
  · rcases mem_guarded h5 with ⟨hb, hk⟩
    refine finish _ (mem_keepIfNonempty hk).1 ?_
    intro d hd; unfold basePool; simp [hb, hd]

/-- `getSelectedClasses` never returns an empty class: the source pushes a
filtered class only when `chars.length > 0`. -/
theorem selectedClasses_ne_nil {o : NormalizedPasswordOptions} {cls : List Char}
    (h : cls ∈ getSelectedClasses o) : cls ≠ [] := by
  unfold getSelectedClasses at h
  rcases List.mem_append.mp h with h4 | h5
  · rcases List.mem_append.mp h4 with h3 | h5
    · rcases List.mem_append.mp h3 with h2 | h5
      · rcases List.mem_append.mp h2 with h1 | h5
        · exact (mem_keepIfNonempty (mem_guarded h1).2).2
        · exact (mem_keepIfNonempty (mem_guarded h5).2).2
      · exact (mem_keepIfNonempty (mem_guarded h5).2).2
    · exact (mem_keepIfNonempty (mem_guarded h5).2).2
  · exact (mem_keepIfNonempty (mem_guarded h5).2).2

/-! ## The alphabet invariant: every buffer entry comes from the pool -/

/-- Every defined entry of the working buffer is a pool character. -/
def BufIn (pool : List Char) (buf : List (Option Char)) : Prop :=
  ∀ c : Char, some c ∈ buf → c ∈ pool

theorem bufIn_nil {pool : List Char} : BufIn pool [] := by
  intro c hc; cases hc

theorem jsCharAt_mem {l : List Char} {j : Int} {c : Char}
    (h : jsCharAt l j = some c) : c ∈ l := by
  unfold jsCharAt at h
  split at h
  · exact List.getElem?_mem h
  · cases h

theorem jsRead_mem {l : List (Option Char)} {j : Int} {c : Char}
    (h : jsRead l j = some c) : some c ∈ l := by
  unfold jsRead at h
  split at h
  · rcases hg : l[j.toNat]? with _ | x
    · rw [hg] at h; cases h
    · rw [hg] at h
      simp only [Option.getD_some] at h
      subst h
      exact List.getElem?_mem hg
  · cases h

theorem bufIn_push {pool : List Char} {buf : List (Option Char)} {x : Option Char}
    (hb : BufIn pool buf) (hx : ∀ c : Char, x = some c → c ∈ pool) :
    BufIn pool (buf ++ [x]) := by
  intro c hc
  rcases List.mem_append.mp hc with h | h
  · exact hb c h
  · rcases List.mem_singleton.mp h with rfl
    exact hx c rfl

theorem bufIn_set {pool : List Char} {buf : List (Option Char)} {i : Nat} {x : Option Char}
    (hb : BufIn pool buf) (hx : ∀ c : Char, x = some c → c ∈ pool) :
    BufIn pool (buf.set i x) := by
  intro c hc
  rcases List.mem_or_eq_of_mem_set hc with h | rfl
  · exact hb c h
  · exact hx c rfl

theorem bufIn_jsSwap {pool : List Char} {buf : List (Option Char)} {i : Nat} {j : Int}
    (hb : BufIn pool buf) : BufIn pool (jsSwap buf i j) := by
  unfold jsSwap
  have hread : ∀ k : Int, ∀ c : Char, jsRead buf k = some c → c ∈ pool :=
    fun k c h => hb c (jsRead_mem h)
  split
  · exact bufIn_set (bufIn_set hb (hread j)) (hread (i : Int))
  · exact bufIn_set hb (hread j)

theorem pickFromClasses_bufIn {pool : List Char} {stream : Nat → Nat}
    (classes : List (List Char))
    (hcls : ∀ cls ∈ classes, ∀ c ∈ cls, c ∈ pool) :
    ∀ acc pos buf pos1, BufIn pool acc →
      pickFromClasses stream classes acc pos = .ok (buf, pos1) → BufIn pool buf := by
  induction classes with
  | nil =>
      intro acc pos buf pos1 hacc h
      unfold pickFromClasses at h
      cases h
      exact hacc
  | cons cls rest ih =>
      intro acc pos buf pos1 hacc h
      unfold pickFromClasses at h
      rcases hs : getSecureRandomInt cls.length stream pos with e | ⟨j, pos2⟩
      · rw [hs] at h; cases h
      · rw [hs] at h
        refine ih (fun d hd => hcls d (List.mem_cons.mpr (.inr hd))) _ _ _ _ ?_ h
        refine bufIn_push hacc ?_
        intro c hc
        exact hcls cls (List.mem_cons_self _ _) c (jsCharAt_mem hc)

theorem fillFromPool_bufIn {pool : List Char} {stream : Nat → Nat} :
    ∀ n acc pos buf pos1, BufIn pool acc →
      fillFromPool stream pool n acc pos = .ok (buf, pos1) → BufIn pool buf := by
  intro n
  induction n with
  | zero =>
      intro acc pos buf pos1 hacc h
      unfold fillFromPool at h
      cases h
      exact hacc
  | succ m ih =>
      intro acc pos buf pos1 hacc h
      unfold fillFromPool at h
      rcases hs : getSecureRandomInt pool.length stream pos with e | ⟨j, pos2⟩
      · rw [hs] at h; cases h
      · rw [hs] at h
        refine ih _ _ _ _ ?_ h
        refine bufIn_push hacc ?_
        intro c hc
        exact jsCharAt_mem hc

theorem fisherYates_bufIn {pool : List Char} {stream : Nat → Nat} :
    ∀ i l pos buf pos1, BufIn pool l →
      fisherYates stream i l pos = .ok (buf, pos1) → BufIn pool buf := by
  intro i
  induction i with
  | zero =>
      intro l pos buf pos1 hl h
      unfold fisherYates at h
      cases h
      exact hl
  | succ m ih =>
      intro l pos buf pos1 hl h
      unfold fisherYates at h
      rcases hs : getSecureRandomInt (m + 2) stream pos with e | ⟨j, pos2⟩
      · rw [hs] at h; cases h
      · rw [hs] at h
        exact ih _ _ _ _ (bufIn_jsSwap hl) h

theorem joinBuf_mem {buf : List (Option Char)} {c : Char}
    (h : c ∈ joinBuf buf) : some c ∈ buf := by
  unfold joinBuf at h
  rcases List.mem_filterMap.mp h with ⟨x, hx, hid⟩
  cases x with
  | none => cases hid
  | some d => cases hid; exact hx

/-- Every character of any successfully generated password belongs to the
configured pool (both generation modes). -/
theorem generate_mem_pool {opts : PasswordOptions} {stream : Nat → Nat}
    {pw : List Char} {pos : Nat} {c : Char}
    (h : generatePassword opts stream = .ok (pw, pos)) (hc : c ∈ pw) :
    c ∈ buildCharacterPool (normalizeOptions opts) := by
  simp only [generatePassword] at h
  split at h
  · simp at h
  · split at h
    · simp only [generateWithRequiredClasses] at h
      split at h
      · simp at h
      · rename_i buf1 pos1 h1
        split at h
        · simp at h
        · rename_i buf2 pos2 h2
          split at h
          · simp at h
          · rename_i buf3 pos3 h3
            rw [Except.ok.injEq, Prod.mk.injEq] at h
            rcases h with ⟨rfl, rfl⟩
            have hb1 : BufIn (buildCharacterPool (normalizeOptions opts)) buf1 :=
              pickFromClasses_bufIn _ (fun cls hcls d hd => class_mem_pool hcls hd)
                _ _ _ _ bufIn_nil h1
            have hb2 := fillFromPool_bufIn _ _ _ _ _ hb1 h2
            have hb3 := fisherYates_bufIn _ _ _ _ _ hb2 h3
            exact hb3 c (joinBuf_mem hc)
    · simp only [generateBasic] at h
      split at h
      · simp at h
      · rename_i buf1 pos1 h1
        rw [Except.ok.injEq, Prod.mk.injEq] at h
        rcases h with ⟨rfl, rfl⟩
        have hb1 := fillFromPool_bufIn _ _ _ _ _ bufIn_nil h1
        exact hb1 c (joinBuf_mem hc)

/-! ## Error propagation: which errors can escape each phase -/

theorem sampleLoop_error {max bytesN : Nat} {mvv : Int} {stream : Nat → Nat} :
    ∀ fuel pos e, sampleLoop max bytesN mvv stream fuel pos = .error e →
      e = .randomnessExhausted := by
  intro fuel
  induction fuel with
  | zero =>
      intro pos e h
      unfold sampleLoop at h
      cases h
      rfl
  | succ m ih =>
      intro pos e h
      simp only [sampleLoop] at h
      split at h
      · cases h
      · exact ih _ _ h

theorem getSecureRandomInt_error {max : Nat} {stream : Nat → Nat} {pos : Nat} {e : GenError}
    (hmax : max ≠ 0) (h : getSecureRandomInt max stream pos = .error e) :
    e = .randomnessExhausted := by
  unfold getSecureRandomInt at h
  rw [if_neg hmax] at h
  split at h
  · cases h
  · exact sampleLoop_error _ _ _ h

theorem pickFromClasses_error {stream : Nat → Nat} :
    ∀ classes : List (List Char), (∀ cls ∈ classes, cls ≠ []) →
      ∀ acc pos e, pickFromClasses stream classes acc pos = .error e →
        e = .randomnessExhausted := by
  intro classes
  induction classes with
  | nil =>
      intro _ acc pos e h
      unfold pickFromClasses at h
      cases h
  | cons cls rest ih =>
      intro hne acc pos e h
      unfold pickFromClasses at h
      split at h
      · rename_i e1 hs
        cases h
        refine getSecureRandomInt_error ?_ hs
        intro h0
        exact hne cls (List.mem_cons_self _ _) (List.length_eq_zero.mp h0)
      · rename_i j pos1 hs
        exact ih (fun d hd => hne d (List.mem_cons.mpr (.inr hd))) _ _ _ h

theorem fillFromPool_error {stream : Nat → Nat} {pool : List Char} (hpool : pool ≠ []) :
    ∀ n acc pos e, fillFromPool stream pool n acc pos = .error e →
      e = .randomnessExhausted := by
  intro n
  induction n with
  | zero =>
      intro acc pos e h
      unfold fillFromPool at h
      cases h
  | succ m ih =>
      intro acc pos e h
      unfold fillFromPool at h
      split at h
      · rename_i e1 hs
        cases h
        refine getSecureRandomInt_error ?_ hs
        intro h0
        exact hpool (List.length_eq_zero.mp h0)
      · rename_i j pos1 hs
        exact ih _ _ _ h

theorem fisherYates_error {stream : Nat → Nat} :
    ∀ i l pos e, fisherYates stream i l pos = .error e → e = .randomnessExhausted := by
  intro i
  induction i with
  | zero =>
      intro l pos e h
      unfold fisherYates at h
      cases h
  | succ m ih =>
      intro l pos e h
      unfold fisherYates at h
      split at h
      · rename_i e1 hs
        cases h
        exact getSecureRandomInt_error (by omega) hs
      · rename_i j pos1 hs
        exact ih _ _ _ h

theorem validate_ok_pool {o : NormalizedPasswordOptions}
    (hv : validateOptions o = .ok ()) : buildCharacterPool o ≠ [] := by
  unfold validateOptions at hv
  split at hv
  · cases hv
  · split at hv
    · cases hv
    · rename_i h1 h2
      intro hnil
      exact h2 (by simp [hnil])

/-- After successful validation, generation can only fail by exhausting the
rejection-sampling retry budget: every sampler call receives a positive
bound. -/
theorem generate_error {opts : PasswordOptions} {stream : Nat → Nat} {e : GenError}
    (hv : validateOptions (normalizeOptions opts) = .ok ())
    (h : generatePassword opts stream = .error e) : e = .randomnessExhausted := by
  simp only [generatePassword] at h
  split at h
  · rename_i e1 heq
    rw [hv] at heq
    exact Except.noConfusion heq
  · split at h
    · simp only [generateWithRequiredClasses] at h
      split at h
      · rename_i e1 h1
        cases h
        exact pickFromClasses_error _ (fun cls hcls => selectedClasses_ne_nil hcls) _ _ _ h1
      · rename_i buf1 pos1 h1
        split at h
        · rename_i e1 h2
          cases h
          exact fillFromPool_error (validate_ok_pool hv) _ _ _ _ h2
        · rename_i buf2 pos2 h2
          split at h
          · rename_i e1 h3
            cases h
            exact fisherYates_error _ _ _ _ h3
          · simp at h
    · simp only [generateBasic] at h
      split at h
      · rename_i e1 h1
        cases h
        exact fillFromPool_error (validate_ok_pool hv) _ _ _ _ h1
      · simp at h

/-! ## Validation characterizations -/

theorem validate_invalidLength_iff {o : NormalizedPasswordOptions} :
    validateOptions o = .error .invalidLength ↔ o.length < 1 := by
  unfold validateOptions
  split_ifs with h1 h2 h3 h4 <;> simp_all

theorem validate_emptyPool_iff {o : NormalizedPasswordOptions} :
    validateOptions o = .error .emptyPool ↔ 1 ≤ o.length ∧ buildCharacterPool o = [] := by
  unfold validateOptions
  split_ifs with h1 h2 h3 h4 <;> simp_all

theorem validate_insufficient_iff {o : NormalizedPasswordOptions} :
    validateOptions o = .error .insufficientLengthForClasses ↔
      1 ≤ o.length ∧ buildCharacterPool o ≠ [] ∧ o.requireEachSelectedClass = true ∧
        o.length < ((getSelectedClasses o).length : Int) := by
  unfold validateOptions
  split_ifs with h1 h2 h3 h4 <;> simp_all

theorem validate_ok_iff {o : NormalizedPasswordOptions} :
    validateOptions o = .ok () ↔
      1 ≤ o.length ∧ buildCharacterPool o ≠ [] ∧
        (o.requireEachSelectedClass = true →
          ((getSelectedClasses o).length : Int) ≤ o.length) := by
  unfold validateOptions
  split_ifs with h1 h2 h3 h4 <;> simp_all

/-! ## `bitsNeeded` is the ceiling base-2 logarithm -/

theorem clog2Aux_eq_clog : ∀ fuel m, m ≤ 2 ^ fuel → clog2Aux m fuel = Nat.clog 2 m := by
  intro fuel
  induction fuel with
  | zero =>
      intro m hm
      have h1 : m ≤ 1 := by simpa using hm
      rw [show clog2Aux m 0 = 0 from rfl, Nat.clog_of_right_le_one h1]
  | succ f ih =>
      intro m hm
      by_cases h1 : m ≤ 1
      · rw [show clog2Aux m (f + 1) = if m ≤ 1 then 0 else clog2Aux ((m + 1) / 2) f + 1 from rfl,
          if_pos h1, Nat.clog_of_right_le_one h1]
      · have h2 : 2 ≤ m := by omega
        rw [show clog2Aux m (f + 1) = if m ≤ 1 then 0 else clog2Aux ((m + 1) / 2) f + 1 from rfl,
          if_neg h1, Nat.clog_of_two_le (by norm_num) h2]
        have he : m + 2 - 1 = m + 1 := by omega
        rw [he, ih ((m + 1) / 2) ?_]
        rw [pow_succ] at hm
        omega

theorem bitsNeeded_eq_clog {max : Nat} (h : max ≤ 2 ^ 64) :
    bitsNeeded max = Nat.clog 2 max :=
  clog2Aux_eq_clog 64 max h

/-! ## Concrete inputs used by the claims -/

/-- The all-zero stubbed byte source. -/
def zeroStream : Nat → Nat := fun _ => 0

/-- Byte source producing `0x80 0x00 0x00 0x01` then zeros. -/
def c1Stream : Nat → Nat := fun i => if i = 0 then 128 else if i = 3 then 1 else 0

/-- Byte source producing `0x80` then zeros. -/
def bigStream : Nat → Nat := fun i => if i = 0 then 128 else 0

/-- A custom alphabet of 2^24 + 1 copies of `a` (its pool deduplicates to
the single character `a`, but its class pool keeps the raw length). -/
def bigCustom : List Char := List.replicate 16777217 'a'

/-- `{length: 1, lowercase/uppercase/digits/symbols: false, custom: 'a'.repeat(16777217), requireEachSelectedClass: true}`. -/
def optsBig : PasswordOptions :=
  { length := some 1, lowercase := some false, uppercase := some false,
    digits := some false, symbols := some false,
    custom := some bigCustom, requireEachSelectedClass := some true }

theorem bigCustom_isEmpty : bigCustom.isEmpty = false := by
  rw [bigCustom, show (16777217 : Nat) = 16777216 + 1 from rfl, List.replicate_succ]
  rfl

theorem dedupAux_replicate_a : ∀ n : Nat, dedupAux ['a'] (List.replicate n 'a') = [] := by
  intro n
  induction n with
  | zero => rfl
  | succ m ih =>
      rw [List.replicate_succ, dedupAux, if_pos (by decide), ih]

theorem dedup_bigCustom : dedup bigCustom = ['a'] := by
  rw [bigCustom, show (16777217 : Nat) = 16777216 + 1 from rfl, List.replicate_succ, dedup,
    dedupAux, if_neg (by decide), dedupAux_replicate_a]

theorem normalize_optsBig :
    normalizeOptions optsBig =
      { length := 1, lowercase := false, uppercase := false, digits := false, symbols := false,
        custom := bigCustom, excludeSimilar := false, exclude := [],
        requireEachSelectedClass := true } := rfl

theorem basePool_optsBig : basePool (normalizeOptions optsBig) = bigCustom := by
  rw [normalize_optsBig]
  unfold basePool
  simp [bigCustom_isEmpty]

theorem pool_optsBig : buildCharacterPool (normalizeOptions optsBig) = ['a'] := by
  unfold buildCharacterPool
  rw [basePool_optsBig, normalize_optsBig]
  simp [dedup_bigCustom]

theorem classes_optsBig : getSelectedClasses (normalizeOptions optsBig) = [bigCustom] := by
  rw [normalize_optsBig]
  unfold getSelectedClasses
  simp [bigCustom_isEmpty, keepIfNonempty, filterClassChars]

theorem validate_optsBig : validateOptions (normalizeOptions optsBig) = .ok () := by
  rw [validate_ok_iff, pool_optsBig, classes_optsBig, normalize_optsBig]
  simp

theorem sampler_bigStream : getSecureRandomInt 16777217 bigStream 0 = .ok (-16777089, 4) := by
  rfl

/-- On validated options, `generatePassword` reduces to the two assembly
modes. -/
theorem generatePassword_ok_validated {opts : PasswordOptions} {stream : Nat → Nat}
    (hv : validateOptions (normalizeOptions opts) = .ok ()) :
    generatePassword opts stream =
      if (normalizeOptions opts).requireEachSelectedClass then
        generateWithRequiredClasses (buildCharacterPool (normalizeOptions opts))
          (getSelectedClasses (normalizeOptions opts)) (normalizeOptions opts) stream 0
      else
        generateBasic (buildCharacterPool (normalizeOptions opts))
          (normalizeOptions opts).length.toNat stream 0 := by
  simp only [generatePassword]
  rw [hv]

/-- Validation errors propagate unchanged (and no randomness is touched). -/
theorem generatePassword_invalid {opts : PasswordOptions} {stream : Nat → Nat} {e : GenError}
    (hv : validateOptions (normalizeOptions opts) = .error e) :
    generatePassword opts stream = .error e := by
  simp only [generatePassword]
  rw [hv]

theorem jsCharAt_bigCustom : jsCharAt bigCustom (-16777089) = none := by
  unfold jsCharAt
  norm_num

theorem pick_optsBig : pickFromClasses bigStream [bigCustom] [] 0 = .ok ([none], 4) := by
  have hlen : bigCustom.length = 16777217 := by rw [bigCustom, List.length_replicate]
  rw [pickFromClasses, hlen, sampler_bigStream]
  change pickFromClasses bigStream [] ([] ++ [jsCharAt bigCustom (-16777089)]) 4 = .ok ([none], 4)
  rw [jsCharAt_bigCustom, pickFromClasses]
  rfl

/-- The complete run of `generatePassword` on `optsBig` with the `0x80 00 00
00 ...` byte source: the single class pick assembles `0x80000000`, which the
JS `<<`/`|` operators wrap to the negative 32-bit value `-2^31`; it is
accepted, `-2^31 % 16777217 = -16777089` indexes the class pool out of
range, `undefined` is pushed, and `join('')` renders it as the empty
string. -/
theorem generate_optsBig : generatePassword optsBig bigStream = .ok ([], 4) := by
  rw [generatePassword_ok_validated validate_optsBig,
    if_pos (show (normalizeOptions optsBig).requireEachSelectedClass = true from rfl),
    classes_optsBig, pool_optsBig, generateWithRequiredClasses, pick_optsBig]
  exact rfl

/-! ## Entropy estimation -/

theorem estimate_zero_of_length {opts : PasswordOptions}
    (h : (normalizeOptions opts).length < 1) : estimateEntropyBits opts = 0 := by
  simp only [estimateEntropyBits]
  rw [if_pos h]

theorem estimate_zero_of_empty_pool {opts : PasswordOptions}
    (h : buildCharacterPool (normalizeOptions opts) = []) : estimateEntropyBits opts = 0 := by
  simp only [estimateEntropyBits]
  split_ifs with h1 h2
  · rfl
  · rfl
  · exact absurd (by simp [h]) h2

theorem estimate_formula {opts : PasswordOptions}
    (h1 : 1 ≤ (normalizeOptions opts).length)
    (h2 : buildCharacterPool (normalizeOptions opts) ≠ []) :
    estimateEntropyBits opts =
      ((normalizeOptions opts).length : ℝ) *
        Real.logb 2 ((buildCharacterPool (normalizeOptions opts)).length : ℝ) := by
  simp only [estimateEntropyBits]
  rw [if_neg (by omega), if_neg (by simp [h2])]

/-- `{length: 8}`, all other fields defaulted. -/
def opts8 : PasswordOptions := { length := some 8 }

theorem pool_opts8_length : (buildCharacterPool (normalizeOptions opts8)).length = 88 := by
  rfl

theorem estimate_opts8 : estimateEntropyBits opts8 = 8 * Real.logb 2 88 := by
  rw [estimate_formula (by decide) (by decide), pool_opts8_length,
    show (normalizeOptions opts8).length = 8 from rfl]
  norm_num

theorem estimate_opts8_bounds :
    50 < estimateEntropyBits opts8 ∧ estimateEntropyBits opts8 < 55 := by
  rw [estimate_opts8]
  constructor
  · have h1 : Real.logb 2 ((2 : ℝ) ^ (50 : Nat)) < Real.logb 2 ((88 : ℝ) ^ (8 : Nat)) :=
      Real.logb_lt_logb (by norm_num) (by positivity) (by norm_num)
    rw [Real.logb_pow, Real.logb_pow, Real.logb_self_eq_one (by norm_num)] at h1
    norm_num at h1
    linarith
  · have h1 : Real.logb 2 ((88 : ℝ) ^ (8 : Nat)) < Real.logb 2 ((2 : ℝ) ^ (55 : Nat)) :=
      Real.logb_lt_logb (by norm_num) (by positivity) (by norm_num)
    rw [Real.logb_pow, Real.logb_pow, Real.logb_self_eq_one (by norm_num)] at h1
    norm_num at h1
    linarith

/-! ## Concrete option records for the claims -/

/-- `{length: 8, custom: "abcdef", lowercase/uppercase/digits/symbols: false, exclude: "ace"}` (the worked example of the spec). -/
def opts6 : PasswordOptions :=
  { length := some 8, lowercase := some false, uppercase := some false,
    digits := some false, symbols := some false,
    custom := some "abcdef".data, exclude := some "ace".data }

/-- `{length: 1, lowercase: true, digits: true, uppercase/symbols: false, exclude: all 26 lowercase letters, requireEachSelectedClass: true}`: the selected lowercase class is emptied by the exclusion. -/
def opts10 : PasswordOptions :=
  { length := some 1, lowercase := some true, uppercase := some false,
    digits := some true, symbols := some false,
    exclude := some "abcdefghijklmnopqrstuvwxyz".data,
    requireEachSelectedClass := some true }

/-- `{length: 1, custom: "b", all class toggles false}`. -/
def optsW : PasswordOptions :=
  { length := some 1, lowercase := some false, uppercase := some false,
    digits := some false, symbols := some false, custom := some ['b'] }

/-! ## Claim theorems -/

/-- C1: evaluation of `getSecureRandomInt` at the failing input `max =
2^24 + 1` with random bytes `0x80 0x00 0x00 0x01`.  The four bytes are
assembled with the JS 32-bit operators, wrap to the negative signed value
`-2147483647`, pass the rejection test (`≤ maxValidValue = 4278190334`), and
`v % max` is returned as the negative number `-16777088` — contradicting the
claimed (and documented) return range `[0, max)`. -/
theorem sampler_overflow_negative_result :
    getSecureRandomInt 16777217 c1Stream 0 = .ok (-16777088, 4) ∧
      (-16777088 : Int) < 0 := by
  exact ⟨rfl, by norm_num⟩

/-- C2: a validated configuration (`length = 1`, constrained mode, custom
class of `2^24 + 1` characters) on which the returned password does not have
`config.length` characters: the class pick's sampler bound exceeds `2^24`,
the 32-bit wrap produces a negative index, `undefined` is pushed, and
`join('')` drops it, so the output is empty. -/
theorem length_invariant_violation :
    validateOptions (normalizeOptions optsBig) = .ok () ∧
      (normalizeOptions optsBig).length = 1 ∧
      generatePassword optsBig bigStream = .ok ([], 4) ∧
      (([] : List Char).length : Int) ≠ (normalizeOptions optsBig).length := by
  exact ⟨validate_optsBig, rfl, generate_optsBig, by decide⟩

/-- C3: every character of a successfully generated password belongs to the
configured pool, is not an excluded character, and (when `excludeSimilar`)
is not a similar-set character — in both generation modes. -/
theorem alphabet_invariant (opts : PasswordOptions) (stream : Nat → Nat)
    (pw : List Char) (pos : Nat)
    (h : generatePassword opts stream = .ok (pw, pos)) :
    ∀ c ∈ pw, c ∈ buildCharacterPool (normalizeOptions opts) ∧
      c ∉ (normalizeOptions opts).exclude ∧
      ((normalizeOptions opts).excludeSimilar = true → c ∉ SIMILAR_CHARACTERS) := by
  intro c hc
  have hp := generate_mem_pool h hc
  have hm := mem_buildCharacterPool.mp hp
  exact ⟨hp, hm.2.2, hm.2.1⟩

theorem alphabet_invariant_witness :
    'b' ∈ buildCharacterPool (normalizeOptions optsW) ∧
      'b' ∉ (normalizeOptions optsW).exclude ∧
      ((normalizeOptions optsW).excludeSimilar = true → 'b' ∉ SIMILAR_CHARACTERS) :=
  alphabet_invariant optsW zeroStream ['b'] 0 (by rfl) 'b' (by decide)

/-- C4: the same validated `requireEachSelectedClass` configuration as C2:
its only selected class is the custom pool, yet the returned password (the
empty string) contains no character of that class, because the class pick
indexed the oversized class pool with a negative wrapped index and the
resulting `undefined` was dropped by `join('')`. -/
theorem class_coverage_violation :
    validateOptions (normalizeOptions optsBig) = .ok () ∧
      (normalizeOptions optsBig).requireEachSelectedClass = true ∧
      getSelectedClasses (normalizeOptions optsBig) = [bigCustom] ∧
      generatePassword optsBig bigStream = .ok ([], 4) ∧
      ∀ c ∈ bigCustom, c ∉ ([] : List Char) := by
  exact ⟨validate_optsBig, rfl, classes_optsBig, generate_optsBig,
    fun c _ => List.not_mem_nil c⟩

/-- C5: the validation errors of `generatePassword` are exactly the spec's
kinds in the spec's situations (`InvalidLength` for `length < 1`,
`EmptyPool` for an empty filtered pool, `InsufficientLengthForClasses` when
the non-empty selected classes exceed the length), every other configuration
validates, a validation failure is returned for every byte source alike
(eagerly, consuming no randomness), and after successful validation no
validation error can occur. -/
theorem validation_error_semantics (opts : PasswordOptions) :
    (validateOptions (normalizeOptions opts) = .error .invalidLength ↔
      (normalizeOptions opts).length < 1) ∧
    (validateOptions (normalizeOptions opts) = .error .emptyPool ↔
      1 ≤ (normalizeOptions opts).length ∧
        buildCharacterPool (normalizeOptions opts) = []) ∧
    (validateOptions (normalizeOptions opts) = .error .insufficientLengthForClasses ↔
      1 ≤ (normalizeOptions opts).length ∧
        buildCharacterPool (normalizeOptions opts) ≠ [] ∧
        (normalizeOptions opts).requireEachSelectedClass = true ∧
        (normalizeOptions opts).length <
          ((getSelectedClasses (normalizeOptions opts)).length : Int)) ∧
    (validateOptions (normalizeOptions opts) = .ok () ↔
      1 ≤ (normalizeOptions opts).length ∧
        buildCharacterPool (normalizeOptions opts) ≠ [] ∧
        ((normalizeOptions opts).requireEachSelectedClass = true →
          ((getSelectedClasses (normalizeOptions opts)).length : Int) ≤
            (normalizeOptions opts).length)) ∧
    (∀ e, validateOptions (normalizeOptions opts) = .error e →
      ∀ stream : Nat → Nat, generatePassword opts stream = .error e) ∧
    (validateOptions (normalizeOptions opts) = .ok () →
      ∀ (stream : Nat → Nat) e, generatePassword opts stream = .error e →
        e = .randomnessExhausted) :=
  ⟨validate_invalidLength_iff, validate_emptyPool_iff, validate_insufficient_iff,
    validate_ok_iff, fun _ he _ => generatePassword_invalid he,
    fun hv _ _ h => generate_error hv h⟩

theorem validation_error_semantics_witness :
    generatePassword { length := some 0 } zeroStream = .error .invalidLength :=
  (validation_error_semantics { length := some 0 }).2.2.2.2.1 .invalidLength (by rfl) zeroStream

/-- C6: the built pool never contains a duplicate character (for every
normalized configuration); on the spec's worked example the pool is exactly
`b, d, f`, and every generated character is one of them. -/
theorem pool_dedup_and_example :
    (∀ o : NormalizedPasswordOptions, (buildCharacterPool o).Nodup) ∧
    buildCharacterPool (normalizeOptions opts6) = ['b', 'd', 'f'] ∧
    (∀ (stream : Nat → Nat) (pw : List Char) (pos : Nat),
      generatePassword opts6 stream = .ok (pw, pos) → ∀ c ∈ pw, c ∈ ['b', 'd', 'f']) := by
  refine ⟨fun o => nodup_dedup _, by rfl, ?_⟩
  intro stream pw pos h c hc
  have hp := generate_mem_pool h hc
  rwa [show buildCharacterPool (normalizeOptions opts6) = ['b', 'd', 'f'] from rfl] at hp

theorem pool_dedup_and_example_witness :
    (buildCharacterPool (normalizeOptions opts6)).Nodup ∧ 'b' ∈ ['b', 'd', 'f'] :=
  ⟨pool_dedup_and_example.1 (normalizeOptions opts6),
    pool_dedup_and_example.2.2 zeroStream ['b', 'b', 'b', 'b', 'b', 'b', 'b', 'b'] 8
      (by rfl) 'b' (by decide)⟩

/-- C7: `estimateEntropyBits` is total (a Lean function), returns `0` for a
degenerate length or an empty pool, otherwise exactly
`length * log2(poolSize)`, and on `{length: 8}` with the four default
classes the value lies strictly between 50 and 55 bits. -/
theorem entropy_estimate_spec :
    (∀ opts : PasswordOptions,
      (normalizeOptions opts).length < 1 → estimateEntropyBits opts = 0) ∧
    (∀ opts : PasswordOptions,
      buildCharacterPool (normalizeOptions opts) = [] → estimateEntropyBits opts = 0) ∧
    (∀ opts : PasswordOptions, 1 ≤ (normalizeOptions opts).length →
      buildCharacterPool (normalizeOptions opts) ≠ [] →
      estimateEntropyBits opts =
        ((normalizeOptions opts).length : ℝ) *
          Real.logb 2 ((buildCharacterPool (normalizeOptions opts)).length : ℝ)) ∧
    (50 < estimateEntropyBits opts8 ∧ estimateEntropyBits opts8 < 55) :=
  ⟨fun _ => estimate_zero_of_length, fun _ => estimate_zero_of_empty_pool,
    fun _ => estimate_formula, estimate_opts8_bounds⟩

theorem entropy_estimate_spec_witness : estimateEntropyBits { length := some 0 } = 0 :=
  entropy_estimate_spec.1 { length := some 0 } (by decide)

/-- C8: `generatePassword` and `getSecureRandomInt` are functions of the
options and of the byte sequence produced by the stubbed source alone: two
sources that agree byte-for-byte yield identical results (there is no other
state in the embedding, which is a faithful translation of the source). -/
theorem determinism_under_fixed_randomness (opts : PasswordOptions) (max pos : Nat)
    (s1 s2 : Nat → Nat) (h : ∀ i, s1 i = s2 i) :
    generatePassword opts s1 = generatePassword opts s2 ∧
      getSecureRandomInt max s1 pos = getSecureRandomInt max s2 pos := by
  have hs : s1 = s2 := funext h
  subst hs
  exact ⟨rfl, rfl⟩

theorem determinism_under_fixed_randomness_witness :
    generatePassword {} zeroStream = generatePassword {} zeroStream ∧
      getSecureRandomInt 5 zeroStream 0 = getSecureRandomInt 5 zeroStream 0 :=
  determinism_under_fixed_randomness {} 5 0 zeroStream zeroStream (fun _ => rfl)

/-- C9: on every configuration that passes validation, password generation
never reports the sampler's `InvalidArgument` guard ("max must be a positive
integer"): every bound handed to `getSecureRandomInt` is positive (the
non-empty pool, the non-empty selected classes, and the Fisher-Yates bound
`i + 1 ≥ 2`). -/
theorem sampler_guard_unreachable (opts : PasswordOptions) (stream : Nat → Nat)
    (hv : validateOptions (normalizeOptions opts) = .ok ()) :
    generatePassword opts stream ≠ .error .invalidArgument := by
  intro h
  exact GenError.noConfusion (generate_error hv h)

theorem sampler_guard_unreachable_witness :
    generatePassword {} zeroStream ≠ .error .invalidArgument :=
  sampler_guard_unreachable {} zeroStream (by rfl)

/-- C10: a selected class that loses all its characters to the exclusion
filters is silently omitted: every entry of `getSelectedClasses` is
non-empty, and on `opts10` (lowercase selected but fully excluded, length 1,
`requireEachSelectedClass`) validation counts only the surviving digits
class, succeeds, and generation returns a digit. -/
theorem emptied_class_silently_omitted :
    (∀ (o : NormalizedPasswordOptions), ∀ cls ∈ getSelectedClasses o, cls ≠ []) ∧
    (normalizeOptions opts10).lowercase = true ∧
    filterClassChars (normalizeOptions opts10) lowercaseClass = [] ∧
    getSelectedClasses (normalizeOptions opts10) = [digitsClass] ∧
    validateOptions (normalizeOptions opts10) = .ok () ∧
    generatePassword opts10 zeroStream = .ok (['0'], 1) :=
  ⟨fun _ _ h => selectedClasses_ne_nil h, rfl, by rfl, by rfl, by rfl, by rfl⟩

theorem emptied_class_silently_omitted_witness : digitsClass ≠ [] :=
  emptied_class_silently_omitted.1 (normalizeOptions opts10) digitsClass
    (by rw [show getSelectedClasses (normalizeOptions opts10) = [digitsClass] from rfl]
        exact List.mem_singleton_self _)

end PwordGen
